import Mathlib

/-!
Verification of the `edlinkn8` tool: a shallow embedding, in Lean, of its
device command protocol (Everdrive class), its cartridge-image model
(NesRom class) and its BPS binary patch decoder (BPSPatch class),
together with theorems settling the specification's claims about them.

Byte buffers (Python `bytes` / `bytearray`) are modelled as `List Nat`
with every element a byte value below 256.  Python's slicing and
indexing rules (clamping slices, negative indices counting from the
end, exceptions on out-of-range item access) are reproduced by the
`pySliceGet` / `pySliceSet` / `pyGet` / `pySet` helpers below.
Operations that can raise a Python exception return `Option` /
`Except`, with `none` / an error value standing for the raised
exception.
-/

set_option maxRecDepth 100000

namespace Edlink

/-- Normalise one bound of a Python slice `l[a:b]` for a sequence of
length `len`: negative bounds count from the end and everything is
clamped into `[0, len]`.  This is exactly CPython's rule for slices
with step 1. -/
def pySliceIdx (len : Nat) (i : Int) : Nat :=
  if i < 0 then ((len : Int) + i).toNat else min i.toNat len

/-- Python slice read `l[a:b]` (step 1): never fails, clamps both bounds. -/
def pySliceGet (l : List Nat) (a b : Int) : List Nat :=
  let ia := pySliceIdx l.length a
  let ib := pySliceIdx l.length b
  (l.drop ia).take (ib - ia)

/-- Python slice assignment `l[a:b] = x` (step 1): replaces the selected
range by `x`, growing or shrinking the sequence as needed; when the
normalised end lies before the normalised start the assignment inserts
`x` at the start position, exactly as CPython does. -/
def pySliceSet (l : List Nat) (a b : Int) (x : List Nat) : List Nat :=
  let ia := pySliceIdx l.length a
  let ib := max ia (pySliceIdx l.length b)
  l.take ia ++ x ++ l.drop ib

/-- Python item read `l[i]`: negative indices count from the end,
out-of-range access raises IndexError (modelled as `none`). -/
def pyGet (l : List Nat) (i : Int) : Option Nat :=
  if 0 ≤ i then l.get? i.toNat
  else if 0 ≤ (l.length : Int) + i then l.get? ((l.length : Int) + i).toNat
  else none

/-- Python item write `l[i] = b` for a non-negative index, as used with
the decoder's `output_offset`: out-of-range raises IndexError (`none`). -/
def pySet (l : List Nat) (i : Nat) (b : Nat) : Option (List Nat) :=
  if i < l.length then some (l.set i b) else none

/-- One bit-step of the reflected CRC-32 (polynomial 0xEDB88320), the
algorithm behind Python's `binascii.crc32` / `zlib.crc32`. -/
def crc32_round (c : Nat) : Nat :=
  if c &&& 1 ≠ 0 then 0xEDB88320 ^^^ (c >>> 1) else c >>> 1

/-- CRC-32 of a byte sequence, exactly the checksum computed by
`binascii.crc32` / `zlib.crc32` in the source. -/
def crc32 (data : List Nat) : Nat :=
  (data.foldl (fun c b => crc32_round^[8] (c ^^^ b)) 0xFFFFFFFF) ^^^ 0xFFFFFFFF

/-- The standard CRC-32 check value: crc32 of the ASCII bytes of
"123456789" is 0xCBF43926, confirming `crc32` is the same function as
`binascii.crc32`. -/
theorem crc32_check_value :
    crc32 [0x31, 0x32, 0x33, 0x34, 0x35, 0x36, 0x37, 0x38, 0x39] = 0xCBF43926 := by
  decide

/-- `convert_uint` from the source: `int.from_bytes(b, "little", signed=False)`. -/
def convert_uint (b : List Nat) : Nat :=
  b.foldr (fun byte acc => byte + 256 * acc) 0

/-- The loop of `read_number_io` from the source, with the byte cursor
made explicit: `data` and `shift` are the accumulator and the current
scale (initially 0 and 1).  Each step reads a byte `x` (end of stream
gives Python `None`, modelled `none`), adds `(x & 0x7F) * shift`, stops
if the high bit of `x` is set, and otherwise performs
`shift <<= 7; data += shift` exactly as the source does.  On success it
returns the decoded value together with the unread remainder of the
stream. -/
def read_number_go : List Nat → Nat → Nat → Option (Nat × List Nat)
  | [], _, _ => none
  | x :: rest, data, shift =>
    let data := data + (x &&& 0x7F) * shift
    if x &&& 0x80 ≠ 0 then some (data, rest)
    else read_number_go rest (data + (shift <<< 7)) (shift <<< 7)

/-- `read_number_io` from the source, started on a fresh stream
(`data, shift = 0, 1`), returning the value and the unread rest. -/
def read_number (b : List Nat) : Option (Nat × List Nat) :=
  read_number_go b 0 1

/-- `read_number` from the source (the `BytesIO` wrapper): it returns the
decoded number — Python `None`, i.e. `none`, when the stream ends before
a terminating byte — together with whatever of the stream is left
(everything was consumed when decoding failed). -/
def read_number_pair (b : List Nat) : Option Nat × List Nat :=
  match read_number b with
  | some (v, rest) => (some v, rest)
  | none => (none, [])

/-- Consuming at least one byte: a successful `read_number_go` strictly
shrinks the stream. -/
theorem read_number_go_length :
    ∀ (bs : List Nat) (d s v : Nat) (rest : List Nat),
      read_number_go bs d s = some (v, rest) → rest.length < bs.length := by
  intro bs
  induction bs with
  | nil => intro d s v rest h; simp [read_number_go] at h
  | cons x xs ih =>
    intro d s v rest h
    by_cases hx : x &&& 0x80 ≠ 0
    · simp [read_number_go, hx] at h
      simp [← h.2, List.length_cons, Nat.lt_succ_self]
    · simp [read_number_go, hx] at h
      exact Nat.lt_trans (ih _ _ _ _ h) (Nat.lt_succ_self _)

/-- A successful `read_number` strictly shrinks the stream. -/
theorem read_number_length {bs : List Nat} {v : Nat} {rest : List Nat}
    (h : read_number bs = some (v, rest)) : rest.length < bs.length :=
  read_number_go_length bs 0 1 v rest h

/-- Errors of the BPS patch code.  `invalidPatch` is the source's
`InvalidPatch` exception (the spec's InvalidPatchError); `pyError`
stands for any other Python-level exception escaping the code
(TypeError, IndexError, ...). -/
inductive PatchErr where
  | invalidPatch
  | pyError
deriving DecidableEq, Repr

/-- The parsed fields of a `BPSPatch` object.  `source_size`,
`target_size` are `Option Nat` because the source stores the raw result
of `read_number`, which is Python `None` when the varint stream ended
prematurely. -/
structure BPSPatchData where
  source_size : Option Nat
  target_size : Option Nat
  metadata : List Nat
  actions : List Nat
  source_checksum : Nat
  target_checksum : Nat
  patch_checksum : Nat
deriving DecidableEq, Repr

/-- Decidable equality of `Except` results, so that concrete runs of
the embedded functions can be checked by `decide`. -/
instance exceptDecEq {ε α : Type} [DecidableEq ε] [DecidableEq α] :
    DecidableEq (Except ε α) := fun x y =>
  match x, y with
  | .ok a, .ok b =>
    if h : a = b then isTrue (by rw [h])
    else isFalse (fun hh => h (Except.ok.inj hh))
  | .error a, .error b =>
    if h : a = b then isTrue (by rw [h])
    else isFalse (fun hh => h (Except.error.inj hh))
  | .ok _, .error _ => isFalse (fun hh => Except.noConfusion hh)
  | .error _, .ok _ => isFalse (fun hh => Except.noConfusion hh)

/-- `BPSPatch.MAGIC_HEADER`: the UTF-8 bytes of "BPS1". -/
def MAGIC_HEADER : List Nat := [0x42, 0x50, 0x53, 0x31]

/-- `BPSPatch.__init__` from the source: checks the 4-byte magic header,
reads the three trailing little-endian CRCs, verifies that the stored
patch checksum equals `binascii.crc32(patch[:-4])`, then decodes the
three leading varints and splits the remainder into metadata and action
stream.  A `None` metadata size is handled the way Python handles a
`None` slice bound: `remainder[:None]` is the whole remainder and
`remainder[None:-12]` is `remainder[:-12]`.  (The source additionally
UTF-8-decodes the metadata bytes, which can only raise on metadata that
is not valid UTF-8; the metadata text itself plays no further role and
is kept as raw bytes here.) -/
def BPSPatch.init (patch : List Nat) : Except PatchErr BPSPatchData :=
  let header := pySliceGet patch 0 4
  if header ≠ MAGIC_HEADER then .error .invalidPatch
  else
    let source_checksum := convert_uint (pySliceGet patch (-12) (-8))
    let target_checksum := convert_uint (pySliceGet patch (-8) (-4))
    let patch_checksum := convert_uint (pySliceGet patch (-4) patch.length)
    let calculated_checksum := crc32 (pySliceGet patch 0 (-4))
    if patch_checksum ≠ calculated_checksum then .error .invalidPatch
    else
      let remainder := pySliceGet patch 4 patch.length
      let (source_size, remainder) := read_number_pair remainder
      let (target_size, remainder) := read_number_pair remainder
      let (metadata_size, remainder) := read_number_pair remainder
      .ok {
        source_size := source_size
        target_size := target_size
        metadata := pySliceGet remainder 0 ((metadata_size.getD remainder.length : Nat) : Int)
        actions := pySliceGet remainder ((metadata_size.getD 0 : Nat) : Int) (-12)
        source_checksum := source_checksum
        target_checksum := target_checksum
        patch_checksum := patch_checksum }

/-- The signed relative-offset update shared by the SourceCopy and
TargetCopy actions:
`offset += (-1 if data & 1 else 1) * (data >> 1)`. -/
def relOffsetUpdate (offset : Int) (data : Nat) : Int :=
  offset + (if data &&& 1 ≠ 0 then -1 else 1) * ((data >>> 1 : Nat) : Int)

/-- The byte-by-byte TargetCopy loop of `patch_rom`:
`for _ in range(length): target[output_offset] = target[target_relative_offset];`
`output_offset += 1; target_relative_offset += 1`.  Returns the updated
target buffer and both offsets; `none` models an IndexError. -/
def tcLoop : Nat → List Nat → Nat → Int → Option (List Nat × Nat × Int)
  | 0, target, output_offset, target_relative_offset =>
    some (target, output_offset, target_relative_offset)
  | n + 1, target, output_offset, target_relative_offset =>
    match pyGet target target_relative_offset with
    | none => none
    | some b =>
      match pySet target output_offset b with
      | none => none
      | some target => tcLoop n target (output_offset + 1) (target_relative_offset + 1)

/-- The main `while True` action loop of `BPSPatch.patch_rom`, with the
`io.BytesIO` action cursor made explicit as the unread suffix of the
action stream.  Each iteration reads an action varint (end of stream
breaks the loop), splits it into a 2-bit command and `length =
(action >> 2) + 1`, and dispatches on SourceRead (0), TargetRead (1),
SourceCopy (2) and TargetCopy (3) exactly as the source does.  `none`
models a Python-level exception escaping the loop (a `None` relative
offset used in arithmetic, or an IndexError in the TargetCopy loop). -/
def patchLoop (source actions target : List Nat) (output_offset : Nat)
    (source_relative_offset target_relative_offset : Int) : Option (List Nat) :=
  match h : read_number actions with
  | none => some target
  | some (action, rest) =>
    let command := action &&& 3
    let length := (action >>> 2) + 1
    if command = 0 then
      -- SourceRead: consume some number of bytes from source file
      let target := pySliceSet target output_offset (output_offset + length)
        (pySliceGet source output_offset (output_offset + length))
      patchLoop source rest target (output_offset + length)
        source_relative_offset target_relative_offset
    else if command = 1 then
      -- TargetRead: consume some number of bytes from patch file
      let target := pySliceSet target output_offset (output_offset + length)
        (rest.take length)
      patchLoop source (rest.drop length) target (output_offset + length)
        source_relative_offset target_relative_offset
    else if command = 2 then
      -- SourceCopy
      match h2 : read_number rest with
      | none => none
      | some (data, rest2) =>
        let sro := relOffsetUpdate source_relative_offset data
        let target := pySliceSet target output_offset (output_offset + length)
          (pySliceGet source sro (sro + length))
        patchLoop source rest2 target (output_offset + length) (sro + length)
          target_relative_offset
    else
      -- TargetCopy
      match h2 : read_number rest with
      | none => none
      | some (data, rest2) =>
        let tro := relOffsetUpdate target_relative_offset data
        match tcLoop length target output_offset tro with
        | none => none
        | some (target, oo, tro) =>
          patchLoop source rest2 target oo source_relative_offset tro
termination_by actions.length
decreasing_by
  · exact read_number_length h
  · exact Nat.lt_of_le_of_lt (by simp [List.length_drop]) (read_number_length h)
  · exact Nat.lt_trans (read_number_length h2) (read_number_length h)
  · exact Nat.lt_trans (read_number_length h2) (read_number_length h)

/-- `BPSPatch.patch_rom` from the source: checks the source length
against `source_size` (Python `len(source) != self.source_size`, which
is also true when `source_size` is `None`), checks
`binascii.crc32(source)` against `source_checksum`, allocates
`bytearray(target_size)` (a TypeError when `target_size` is `None`),
runs the action loop, and finally checks `binascii.crc32(target)`
against `target_checksum`, returning the target only when it matches. -/
def patch_rom (p : BPSPatchData) (source : List Nat) : Except PatchErr (List Nat) :=
  if some source.length ≠ p.source_size then .error .invalidPatch
  else if crc32 source ≠ p.source_checksum then .error .invalidPatch
  else
    match p.target_size with
    | none => .error .pyError
    | some target_size =>
      match patchLoop source p.actions (List.replicate target_size 0) 0 0 0 with
      | none => .error .pyError
      | some target =>
        if crc32 target ≠ p.target_checksum then .error .invalidPatch
        else .ok target

/-! ### Claim C1 : the patch-checksum validation in `BPSPatch.__init__` -/

/-- A concrete 19-byte BPS patch: magic "BPS1", three varints `0x80`
(source size 0, target size 0, metadata size 0), zero source and target
CRCs, and stored patch checksum `0x5ED81F93 = 1591222163`, which is the
CRC-32 of the first 15 bytes (everything before the trailing 4-byte
patch-checksum field). -/
def c1patch : List Nat :=
  [0x42, 0x50, 0x53, 0x31, 0x80, 0x80, 0x80,
   0, 0, 0, 0, 0, 0, 0, 0, 147, 31, 216, 94]

/-- Claim C1 as stated is false: `BPSPatch.__init__` accepts `c1patch`
(its stored patch checksum 1591222163 is the CRC-32 of `patch[:-4]`),
yet the CRC-32 of every byte preceding the trailing 12-byte checksum
block (`patch[:-12]`, value 1113364973) differs from the stored
checksum, so the claimed rejection condition does not hold. -/
theorem C1_counterexample :
    (BPSPatch.init c1patch).toOption.map BPSPatchData.patch_checksum = some 1591222163
      ∧ crc32 (pySliceGet c1patch 0 (-12)) ≠ 1591222163 := by
  decide

/-- Claim C1, amended: constructing a `BPSPatch` rejects the patch
(InvalidPatchError) unless the stored patch checksum equals the CRC-32
of every byte preceding the trailing 4-byte patch-checksum field
(`patch[:-4]`, which includes the source- and target-checksum fields of
the 12-byte block), and the check happens at construction time, before
any patching can occur: every accepted patch satisfies the equation,
and any patch with a correct magic header whose stored checksum
violates it is rejected with InvalidPatchError. -/
theorem C1_patch_checksum_validation (patch : List Nat) :
    (∀ p, BPSPatch.init patch = .ok p →
        p.patch_checksum = crc32 (pySliceGet patch 0 (-4)))
    ∧ (pySliceGet patch 0 4 = MAGIC_HEADER →
        convert_uint (pySliceGet patch (-4) patch.length) ≠ crc32 (pySliceGet patch 0 (-4)) →
        BPSPatch.init patch = .error .invalidPatch) := by
  constructor
  · intro p hp
    by_cases hm : pySliceGet patch 0 4 = MAGIC_HEADER
    · by_cases hc : convert_uint (pySliceGet patch (-4) patch.length)
          = crc32 (pySliceGet patch 0 (-4))
      · rcases hA : read_number_pair (pySliceGet patch 4 patch.length) with ⟨ss, r1⟩
        rcases hB : read_number_pair r1 with ⟨ts, r2⟩
        rcases hC : read_number_pair r2 with ⟨ms, r3⟩
        simp only [BPSPatch.init, hm, hc, hA, hB, hC, if_neg, not_true_eq_false,
          ite_false, not_false_eq_true, ite_true] at hp
        rw [if_neg (by simp : ¬(MAGIC_HEADER ≠ MAGIC_HEADER)),
          if_neg (by simp :
            ¬(crc32 (pySliceGet patch 0 (-4)) ≠ crc32 (pySliceGet patch 0 (-4))))] at hp
        injection hp with h
        subst h
        rfl
      · exfalso
        simp only [BPSPatch.init, hm] at hp
        rw [if_neg (by simp : ¬MAGIC_HEADER ≠ MAGIC_HEADER), if_pos hc] at hp
        exact Except.noConfusion hp
    · exfalso
      simp only [BPSPatch.init, if_pos hm] at hp
      exact Except.noConfusion hp
  · intro hm hc
    simp only [BPSPatch.init, hm]
    rw [if_neg (by simp : ¬MAGIC_HEADER ≠ MAGIC_HEADER), if_pos hc]

/-- Witness for the amended C1: the bare 4-byte patch "BPS1" has a
correct magic header but a stored checksum (read from its own last 4
bytes) different from `crc32(patch[:-4]) = crc32(b"") = 0`, so it is
rejected with InvalidPatchError. -/
theorem C1_witness :
    BPSPatch.init [0x42, 0x50, 0x53, 0x31] = .error .invalidPatch :=
  (C1_patch_checksum_validation [0x42, 0x50, 0x53, 0x31]).2 (by decide) (by decide)

/-! ### Claim C2 : the variable-length integer decoder's additive bias -/

/-- Modelled from the claim's words: a decoder that adds each byte's
low 7 bits times the current shift and, after each non-terminal byte,
applies exactly `value += shift; shift <<= 7` — i.e. it adds the OLD
shift as the bias and only then multiplies the shift.  This is the
recurrence the claim asserts `read_number_io` computes. -/
def claimBias_go : List Nat → Nat → Nat → Option (Nat × List Nat)
  | [], _, _ => none
  | x :: rest, value, shift =>
    let value := value + (x &&& 0x7F) * shift
    if x &&& 0x80 ≠ 0 then some (value, rest)
    else claimBias_go rest (value + shift) (shift <<< 7)

/-- The claim's recurrence started with `value, shift = 0, 1`. -/
def claimBiasDecode (b : List Nat) : Option (Nat × List Nat) :=
  claimBias_go b 0 1

/-- Claim C2 as stated is false: on the two-byte encoding
`[0x00, 0x80]` the source's decoder yields 128 (it applies
`shift <<= 7; data += shift`, adding the NEW shift), while the claim's
recurrence `value += shift; shift <<= 7` yields 1. -/
theorem C2_counterexample :
    read_number [0x00, 0x80] = some (128, [])
      ∧ claimBiasDecode [0x00, 0x80] = some (1, [])
      ∧ (read_number [0x00, 0x80]).map Prod.fst
          ≠ (claimBiasDecode [0x00, 0x80]).map Prod.fst := by
  decide

/-- Closed form of the value actually computed by the decoder on a
stream of continued bytes `pre` followed by a terminal byte `t`: each
byte contributes its low 7 bits times `128 ^ position`, and each
continued byte additionally contributes the post-shift bias
`128 ^ (position + 1)` (the recurrence `shift <<= 7; value += shift`),
in Horner form. -/
def biasedValue : List Nat → Nat → Nat
  | [], t => t &&& 0x7F
  | b :: bs, t => (b &&& 0x7F) + 128 + 128 * biasedValue bs t

/-- `biasedValue` written as explicit power sums. -/
theorem biasedValue_eq_sum (pre : List Nat) (t : Nat) :
    biasedValue pre t
      = (∑ i in Finset.range pre.length, (pre.getD i 0 &&& 0x7F) * 128 ^ i)
        + (∑ i in Finset.range pre.length, 128 ^ (i + 1))
        + (t &&& 0x7F) * 128 ^ pre.length := by
  induction pre with
  | nil => simp [biasedValue]
  | cons b bs ih =>
    rw [biasedValue, ih, List.length_cons, Finset.sum_range_succ', Finset.sum_range_succ']
    simp only [List.getD_cons_succ, List.getD_cons_zero]
    have e1 : ∑ i in Finset.range bs.length, (bs.getD i 0 &&& 0x7F) * 128 ^ (i + 1)
        = 128 * ∑ i in Finset.range bs.length, (bs.getD i 0 &&& 0x7F) * 128 ^ i := by
      rw [Finset.mul_sum]
      exact Finset.sum_congr rfl fun i _ => by rw [pow_succ]; ring
    have e2 : ∑ i in Finset.range bs.length, 128 ^ (i + 1 + 1)
        = 128 * ∑ i in Finset.range bs.length, 128 ^ (i + 1) := by
      rw [Finset.mul_sum]
      exact Finset.sum_congr rfl fun i _ => by rw [pow_succ]; ring
    rw [e1, e2, pow_succ]
    ring

/-- The decoder loop on `pre ++ t :: rest` with arbitrary accumulator
state computes `d + s * biasedValue pre t`. -/
theorem read_number_go_biased (pre : List Nat) :
    ∀ (t : Nat) (rest : List Nat) (d s : Nat),
      (∀ b ∈ pre, b &&& 0x80 = 0) → t &&& 0x80 ≠ 0 →
      read_number_go (pre ++ t :: rest) d s = some (d + s * biasedValue pre t, rest) := by
  induction pre with
  | nil =>
    intro t rest d s _ ht
    simp [read_number_go, ht, biasedValue, Nat.mul_comm]
  | cons b bs ih =>
    intro t rest d s hpre ht
    have hb : b &&& 0x80 = 0 := hpre b (List.mem_cons_self b bs)
    rw [List.cons_append, read_number_go]
    rw [if_neg (by simp [hb])]
    rw [ih t rest _ _ (fun x hx => hpre x (List.mem_cons_of_mem _ hx)) ht]
    have hs : s <<< 7 = s * 128 := by rw [Nat.shiftLeft_eq]
    rw [biasedValue, hs]
    congr 2
    ring

/-- Claim C2, amended: the decoder performs base-128 accumulation with a
continuation bit in the high bit, adding each byte's low 7 bits times
the current shift, and after each non-terminal byte it applies exactly
`shift <<= 7; value += shift` — the bias added is the NEW (post-shift)
shift.  Consequently, on any encoding consisting of continued bytes
`pre` followed by a terminal byte `t`, the decoder returns
`Σ low7(bᵢ)·128^i + Σ_{i=1..|pre|} 128^i + low7(t)·128^|pre|`. -/
theorem C2_varint_decoder (pre : List Nat) (t : Nat) (rest : List Nat)
    (hpre : ∀ b ∈ pre, b &&& 0x80 = 0) (ht : t &&& 0x80 ≠ 0) :
    read_number (pre ++ t :: rest) = some (biasedValue pre t, rest)
      ∧ biasedValue pre t
        = (∑ i in Finset.range pre.length, (pre.getD i 0 &&& 0x7F) * 128 ^ i)
          + (∑ i in Finset.range pre.length, 128 ^ (i + 1))
          + (t &&& 0x7F) * 128 ^ pre.length := by
  refine ⟨?_, biasedValue_eq_sum pre t⟩
  rw [read_number, read_number_go_biased pre t rest 0 1 hpre ht]
  simp

/-- Witness for the amended C2 at the concrete two-byte encoding
`[0x01, 0x82]`: the decoder returns
`biasedValue [0x01] 0x82 = 1 + 128 + 128·2 = 385`. -/
theorem C2_witness :
    read_number [0x01, 0x82] = some (biasedValue [0x01] 0x82, [])
      ∧ biasedValue [0x01] 0x82
        = (∑ i in Finset.range 1, ([0x01].getD i 0 &&& 0x7F) * 128 ^ i)
          + (∑ i in Finset.range 1, 128 ^ (i + 1))
          + (0x82 &&& 0x7F) * 128 ^ 1 :=
  C2_varint_decoder [0x01] 0x82 [] (by decide) (by decide)

/-! ### Claim C3 : TargetCopy is a byte-by-byte run-length expander -/

/-- The TargetCopy loop started just past a single written byte
(`target_relative_offset = output_offset - 1`, i.e. `m` and `m + 1`)
replicates that byte: each iteration reads the byte written by the
previous one, so after `n` iterations positions `m+1 .. m+n` all hold
the byte at position `m`, and both offsets have advanced by `n`. -/
theorem tcLoop_replicate :
    ∀ (n m : Nat) (t : List Nat) (b : Nat), m + 1 + n ≤ t.length → t.get? m = some b →
      tcLoop n t (m + 1) (m : Int)
        = some (t.take (m + 1) ++ List.replicate n b ++ t.drop (m + 1 + n),
            m + 1 + n, (m : Int) + n) := by
  intro n
  induction n with
  | zero =>
    intro m t b hlen hget
    simp [tcLoop, List.take_append_drop]
  | succ n ih =>
    intro m t b hlen hget
    have hm1 : m + 1 < t.length := by omega
    have hget' : pyGet t (m : Int) = some b := by
      simp only [pyGet, if_pos (by omega : (0:Int) ≤ (m:Int)), Int.toNat_natCast]
      exact hget
    have hset : pySet t (m + 1) b = some (t.set (m + 1) b) := by simp [pySet, hm1]
    have hlen' : (m + 1) + 1 + n ≤ (t.set (m + 1) b).length := by
      simp only [List.length_set]; omega
    have hget2 : (t.set (m + 1) b).get? (m + 1) = some b := by
      rw [List.get?_eq_getElem?]
      exact List.getElem?_set_eq_of_lt b hm1
    have hcast : (m : Int) + 1 = ((m + 1 : Nat) : Int) := by push_cast; ring
    simp only [tcLoop, hget', hset]
    rw [hcast, ih (m + 1) (t.set (m + 1) b) b hlen' hget2]
    have htake : (t.set (m + 1) b).take (m + 1 + 1) = t.take (m + 1) ++ [b] := by
      rw [List.set_eq_take_cons_drop b hm1, List.take_append_eq_append_take,
        List.take_take, List.length_take]
      have h1 : min (m + 1 + 1) (m + 1) = m + 1 := by omega
      have h2 : m + 1 + 1 - min (m + 1) t.length = 1 := by omega
      rw [h1, h2]
      simp
    have hdrop : (t.set (m + 1) b).drop (m + 1 + 1 + n) = t.drop (m + 1 + (n + 1)) := by
      rw [List.set_eq_take_cons_drop b hm1, List.drop_append_eq_append_drop,
        List.drop_eq_nil_of_le (by simp [List.length_take]; omega), List.length_take]
      have h2 : m + 1 + 1 + n - min (m + 1) t.length = n + 1 := by omega
      rw [h2]
      simp [List.drop_drop]
      congr 1
      omega
    rw [htake, hdrop]
    refine congrArg some ?_
    refine Prod.ext ?_ (Prod.ext ?_ ?_)
    · simp [List.replicate_succ, List.append_assoc]
    · simp; omega
    · simp; ring

/-- Claim C3: a TargetCopy action copies byte-by-byte from the
already-written target region, each single-byte copy advancing both
`output_offset` and `target_relative_offset` by one before the next
byte is read (second conjunct); a decoded relative offset of zero
leaves `target_relative_offset` unchanged (first conjunct); and with
`target_relative_offset` one byte behind `output_offset`, a TargetCopy
of length `n` writes `n` copies of that single previously-written byte
(third conjunct). -/
theorem C3_target_copy_run_length (n oo : Nat) (t : List Nat) (b : Nat) (tro : Int) :
    (∀ d : Nat, d >>> 1 = 0 → relOffsetUpdate tro d = tro)
    ∧ (∀ t' b', pyGet t tro = some b' → pySet t oo b' = some t' →
        tcLoop (n + 1) t oo tro = tcLoop n t' (oo + 1) (tro + 1))
    ∧ (1 ≤ oo → oo + n ≤ t.length → t.get? (oo - 1) = some b → tro = (oo : Int) - 1 →
        tcLoop n t oo tro
          = some (t.take oo ++ List.replicate n b ++ t.drop (oo + n), oo + n, tro + n)) := by
  refine ⟨?_, ?_, ?_⟩
  · intro d hd
    simp [relOffsetUpdate, hd]
  · intro t' b' h1 h2
    simp only [tcLoop, h1, h2]
  · intro h1 h2 h3 h4
    obtain ⟨m, rfl⟩ : ∃ m, oo = m + 1 := ⟨oo - 1, by omega⟩
    have htro : tro = (m : Int) := by rw [h4]; push_cast; ring
    subst htro
    have h3' : t.get? m = some b := by simpa using h3
    rw [tcLoop_replicate n m t b h2 h3']

/-- Witness for C3 at a concrete input: the buffer `[7, 0, 0]` with
`output_offset = 1`, `target_relative_offset = 0` and length 2 becomes
`[7, 7, 7]` with both offsets advanced by 2. -/
theorem C3_witness :
    tcLoop 2 [7, 0, 0] 1 0 = some ([7] ++ List.replicate 2 7 ++ [], 3, 0 + 2) :=
  (C3_target_copy_run_length 2 1 [7, 0, 0] 7 0).2.2 (by decide) (by decide)
    (by decide) (by decide)

/-! ### Claim C4 : patch_rom's validation order and post-conditions -/

/-- Claim C4: `patch_rom` rejects with InvalidPatchError when the
source's length differs from `source_size` (first conjunct) or, with
matching length, when the source's CRC-32 differs from
`source_checksum` (second conjunct) — both rejections are issued for
every action stream, i.e. before any action is decoded.  The action
loop exits, returning the current target, exactly when the action
reader signals that the stream is exhausted (third conjunct), so
decoding consumes the action stream to its end.  After a full decode
producing `t'`, `patch_rom` rejects with InvalidPatchError when
`crc32 t'` differs from `target_checksum` — the decoded result is
discarded, no partial output is returned — and otherwise returns the
decoded target (fourth conjunct). -/
theorem C4_patch_rom_checks (p : BPSPatchData) (source : List Nat) :
    (p.source_size ≠ some source.length → patch_rom p source = .error .invalidPatch)
    ∧ (p.source_size = some source.length → crc32 source ≠ p.source_checksum →
        patch_rom p source = .error .invalidPatch)
    ∧ (∀ (as t : List Nat) (oo : Nat) (sro tro : Int), read_number as = none →
        patchLoop source as t oo sro tro = some t)
    ∧ (∀ (ts : Nat) (t' : List Nat), p.source_size = some source.length →
        crc32 source = p.source_checksum → p.target_size = some ts →
        patchLoop source p.actions (List.replicate ts 0) 0 0 0 = some t' →
        (crc32 t' ≠ p.target_checksum → patch_rom p source = .error .invalidPatch)
        ∧ (crc32 t' = p.target_checksum → patch_rom p source = .ok t')) := by
  refine ⟨?_, ?_, ?_, ?_⟩
  · intro h
    rw [patch_rom, if_pos (Ne.symm h)]
  · intro h1 h2
    rw [patch_rom, if_neg (by simp [h1]), if_pos h2]
  · intro as t oo sro tro h
    rw [patchLoop.eq_def]
    split
    · rfl
    · rename_i action rest heq
      rw [h] at heq
      exact Option.noConfusion heq
  · intro ts t' h1 h2 h3 h4
    constructor
    · intro h5
      simp [patch_rom, h1, h2, h3, h4, h5]
    · intro h5
      simp [patch_rom, h1, h2, h3, h4, h5]

/-- Witness for C4: a patch whose `source_size` is 0 applied to the
one-byte source `[9]` is rejected with InvalidPatchError. -/
theorem C4_witness :
    patch_rom
      { source_size := some 0, target_size := some 0, metadata := [], actions := [],
        source_checksum := 0, target_checksum := 0, patch_checksum := 0 }
      [9] = .error .invalidPatch :=
  (C4_patch_rom_checks
    { source_size := some 0, target_size := some 0, metadata := [], actions := [],
      source_checksum := 0, target_checksum := 0, patch_checksum := 0 }
    [9]).1 (by decide)

/-! ### Claim C5 : the status query -/

/-- `Everdrive.receive_16` from the source: reads two bytes and
assembles `result[1] << 8 | result[0]` (little-endian); fewer than two
available bytes make the indexing raise (modelled `none`). -/
def receive_16 (stream : List Nat) : Option Nat :=
  match stream with
  | b0 :: b1 :: _ => some (b1 <<< 8 ||| b0)
  | _ => none

/-- `Everdrive.get_status` from the source (after transmitting the
status command): reads a 16-bit little-endian reply, raises
(ProtocolError in the spec's taxonomy, modelled `none`) unless
`response & 0xFF00 == 0xA500`, and returns `response & 0xFF`. -/
def get_status (stream : List Nat) : Option Nat :=
  match receive_16 stream with
  | none => none
  | some response =>
    if response &&& 0xFF00 ≠ 0xA500 then none
    else some (response &&& 0xFF)

/-- Claim C5: the status query reads a 16-bit little-endian reply and
fails unless the high byte equals 0xA5, otherwise returning the low
byte as the status code; in particular reply value 0xA503 (bytes
`[0x03, 0xA5]` on the wire) yields status code 0x03 and reply value
0x1234 (bytes `[0x34, 0x12]`) is rejected. -/
theorem C5_status_decode :
    (∀ b0 : Nat, b0 < 256 → ∀ b1 : Nat, b1 < 256 →
      (b1 = 0xA5 → get_status [b0, b1] = some b0)
      ∧ (b1 ≠ 0xA5 → get_status [b0, b1] = none))
    ∧ get_status [0x03, 0xA5] = some 0x03
    ∧ get_status [0x34, 0x12] = none := by
  refine ⟨?_, by decide, by decide⟩
  have h1 : ∀ x : Nat, x < 256 → x &&& 0xFF00 = 0 ∧ x &&& 0xFF = x := by decide
  have h2 : ∀ y : Nat, y < 256 → ((y <<< 8) &&& 0xFF00 = y <<< 8)
      ∧ ((y <<< 8) &&& 0xFF = 0) ∧ ((y <<< 8 = 0xA500) ↔ y = 0xA5) := by decide
  intro b0 hb0 b1 hb1
  constructor
  · intro hb1eq
    subst hb1eq
    simp only [get_status, receive_16]
    rw [Nat.and_distrib_right, (h2 0xA5 (by norm_num)).1, (h1 b0 hb0).1, Nat.or_zero,
      if_neg (by decide : ¬((0xA5 : Nat) <<< 8 ≠ 0xA500))]
    rw [Nat.and_distrib_right, (h2 0xA5 (by norm_num)).2.1, (h1 b0 hb0).2, Nat.zero_or]
  · intro hb1ne
    simp only [get_status, receive_16]
    rw [Nat.and_distrib_right, (h2 b1 hb1).1, (h1 b0 hb0).1, Nat.or_zero,
      if_pos (fun heq => hb1ne ((h2 b1 hb1).2.2.mp heq))]

/-- Witness for C5: a status reply with high byte 0xA5 and low byte
0x34 decodes to status code 0x34. -/
theorem C5_witness : get_status [0x34, 0xA5] = some 0x34 :=
  (C5_status_decode.1 0x34 (by decide) 0xA5 (by decide)).1 (by decide)

/-! ### Claim C6 : the 4-byte command frame -/

/-- `Everdrive.transmit_command` from the source: the transmitted frame
is `cmd[0] = ord('+') = 0x2B`, `cmd[1] = ord('+') ^ 0xFF`,
`cmd[2] = command`, `cmd[3] = command ^ 0xFF`.  (Storing a value above
255 into the Python bytearray would raise; every command byte the
source transmits is below 256, and the claim quantifies over 0–255.) -/
def transmit_command_frame (command : Nat) : List Nat :=
  [0x2B, 0x2B ^^^ 0xFF, command, command ^^^ 0xFF]

/-- Claim C6: for every command byte `c` in 0–255 the transmitted frame
is exactly `['+', '+' XOR 0xFF, c, c XOR 0xFF]`; byte 0 is 0x2B, byte 1
is the constant `0x2B ^ 0xFF`, bytes 1 and 3 are the 8-bit bitwise
complements (XOR 0xFF) of bytes 0 and 2, and the complement stays a
byte. -/
theorem C6_command_frame :
    ∀ c : Nat, c < 256 →
      transmit_command_frame c = [0x2B, 0x2B ^^^ 0xFF, c, c ^^^ 0xFF]
      ∧ (transmit_command_frame c).get? 0 = some 0x2B
      ∧ (transmit_command_frame c).get? 1 = some (0x2B ^^^ 0xFF)
      ∧ (transmit_command_frame c).get? 1
          = ((transmit_command_frame c).get? 0).map (0xFF ^^^ ·)
      ∧ (transmit_command_frame c).get? 3
          = ((transmit_command_frame c).get? 2).map (0xFF ^^^ ·)
      ∧ c ^^^ 0xFF < 256 := by
  decide

/-- Witness for C6 at the status command byte 0x10: the frame is
`[0x2B, 0xD4, 0x10, 0xEF]`. -/
theorem C6_witness :
    transmit_command_frame 0x10 = [0x2B, 0x2B ^^^ 0xFF, 0x10, 0x10 ^^^ 0xFF] :=
  (C6_command_frame 0x10 (by decide)).1

/-! ### The NesRom image model (claims C7, C8, C10) -/

/-- Errors of `NesRom.__init__`: `unsupported` is the source's
RuntimeError for a bad magic or the unsupported mapper 255 (the spec's
UnsupportedImageError); `indexError` is a Python IndexError raised when
a header byte past the end of the image is read. -/
inductive NesErr where
  | unsupported
  | indexError
deriving DecidableEq, Repr

/-- `NesRom.MIR_HOR` -/
def MIR_HOR : String := "H"

/-- `NesRom.MIR_VER` -/
def MIR_VER : String := "V"

/-- `NesRom.MIR_4SC` -/
def MIR_4SC : String := "4"

/-- The attributes computed by `NesRom.__init__` (the constant `name`
and `rom_type` fields and the raw `rom` bytes are omitted; `size` is
`len(rom)`). -/
structure NesRomData where
  size : Nat
  ines : List Nat
  prg_size : Nat
  chr_size : Nat
  srm_size : Nat
  mapper : Nat
  mirroring : String
  bat_ram : Bool
  crc : Nat
  prg : List Nat
  chr : List Nat
deriving DecidableEq, Repr

/-- `NesRom.__init__` from the source: `ines = rom[:32]`; reject unless
`ines[0:3] == b"NES"`; `prg_size = rom[4] * 1024 * 16` (overridden to
0x400000 when zero), `chr_size = rom[5] * 1024 * 8`,
`mapper = (rom[6] >> 4) | (rom[7] & 0xF0)`, mirroring from bits 0 and 3
of `rom[6]`, battery flag from bit 1, `crc = zlib.crc32(rom[16:])`,
reject mapper 255, then slice `prg = rom[16 : 16 + prg_size]` and
`chr = rom[16 + prg_size : 16 + prg_size + chr_size]`.  Reading a
header byte that does not exist raises IndexError; since Python fails
at the first missing index and indices 4–7 are read in order, a single
`indexError` result models any of them. -/
def NesRom.init (rom : List Nat) : Except NesErr NesRomData :=
  let ines := pySliceGet rom 0 32
  if pySliceGet ines 0 3 ≠ [0x4E, 0x45, 0x53] then .error .unsupported
  else
    match rom.get? 4, rom.get? 5, rom.get? 6, rom.get? 7 with
    | some b4, some b5, some b6, some b7 =>
      let prg_size0 := b4 * 1024 * 16
      let chr_size := b5 * 1024 * 8
      let prg_size := if prg_size0 = 0 then 0x400000 else prg_size0
      let mapper := (b6 >>> 4) ||| (b7 &&& 0xF0)
      let mirroring0 := if b6 &&& 1 ≠ 0 then MIR_VER else MIR_HOR
      let bat_ram := b6 &&& 2 != 0
      let mirroring := if b6 &&& 8 ≠ 0 then MIR_4SC else mirroring0
      let crc := crc32 (pySliceGet rom 16 rom.length)
      if mapper = 255 then .error .unsupported
      else .ok {
        size := rom.length
        ines := ines
        prg_size := prg_size
        chr_size := chr_size
        srm_size := 8192
        mapper := mapper
        mirroring := mirroring
        bat_ram := bat_ram
        crc := crc
        prg := pySliceGet rom 16 (16 + prg_size)
        chr := pySliceGet rom (16 + prg_size) (16 + prg_size + chr_size) }
    | _, _, _, _ => .error .indexError

/-- Characterisation of a successful `NesRom.__init__`: the four header
bytes exist and every derived attribute is the stated function of
them. -/
theorem NesRom.init_ok (rom : List Nat) (r : NesRomData) (h : NesRom.init rom = .ok r) :
    ∃ b4 b5 b6 b7, rom.get? 4 = some b4 ∧ rom.get? 5 = some b5
      ∧ rom.get? 6 = some b6 ∧ rom.get? 7 = some b7
      ∧ r.prg_size = (if b4 * 1024 * 16 = 0 then 0x400000 else b4 * 1024 * 16)
      ∧ r.chr_size = b5 * 1024 * 8
      ∧ r.mapper = (b6 >>> 4) ||| (b7 &&& 0xF0)
      ∧ r.mirroring
          = (if b6 &&& 8 ≠ 0 then MIR_4SC else if b6 &&& 1 ≠ 0 then MIR_VER else MIR_HOR)
      ∧ r.prg = pySliceGet rom 16 (16 + r.prg_size)
      ∧ r.chr = pySliceGet rom (16 + r.prg_size) (16 + r.prg_size + r.chr_size) := by
  rw [NesRom.init] at h
  by_cases hm : pySliceGet (pySliceGet rom 0 32) 0 3 ≠ [0x4E, 0x45, 0x53]
  · rw [if_pos hm] at h
    exact Except.noConfusion h
  · rw [if_neg hm] at h
    split at h
    · rename_i b4 b5 b6 b7 heq4 heq5 heq6 heq7
      by_cases hmap : (b6 >>> 4) ||| (b7 &&& 0xF0) = 255
      · rw [if_pos hmap] at h
        exact Except.noConfusion h
      · rw [if_neg hmap] at h
        injection h with h
        subst h
        exact ⟨b4, b5, b6, b7, heq4, heq5, heq6, heq7, rfl, rfl, rfl, rfl, rfl, rfl⟩
    · exact Except.noConfusion h

/-- Slicing the first 3 bytes out of `rom[:32]` is the same as slicing
them out of `rom` itself. -/
theorem pySliceGet_32_3 (rom : List Nat) :
    pySliceGet (pySliceGet rom 0 32) 0 3 = pySliceGet rom 0 3 := by
  simp only [pySliceGet, pySliceIdx]
  norm_num
  rw [List.take_take]
  congr 1
  omega

/-- An in-range `get?` returns the `getD` value. -/
theorem get?_eq_getD_of_lt (l : List Nat) (i : Nat) (h : i < l.length) :
    l.get? i = some (l.getD i 0) := by
  rw [List.getD_eq_getElem?_getD, List.get?_eq_getElem?, List.getElem?_eq_getElem h]
  rfl

/-- The empty Python slice `l[a:a]`. -/
theorem pySliceGet_self (l : List Nat) (a : Int) : pySliceGet l a a = [] := by
  simp [pySliceGet]

/-- With a valid magic and all four header bytes present, `NesRom.init`
is decided entirely by the mapper test. -/
theorem NesRom.init_of_bytes (rom : List Nat) (b4 b5 b6 b7 : Nat)
    (h4 : rom.get? 4 = some b4) (h5 : rom.get? 5 = some b5)
    (h6 : rom.get? 6 = some b6) (h7 : rom.get? 7 = some b7)
    (hm : pySliceGet rom 0 3 = [0x4E, 0x45, 0x53]) :
    (((b6 >>> 4) ||| (b7 &&& 0xF0)) = 255 → NesRom.init rom = .error .unsupported)
    ∧ (((b6 >>> 4) ||| (b7 &&& 0xF0)) ≠ 255 → (NesRom.init rom).isOk = true) := by
  rw [NesRom.init, if_neg (by rw [pySliceGet_32_3, hm]; simp)]
  simp only [h4, h5, h6, h7]
  constructor
  · intro hmap
    rw [if_pos hmap]
  · intro hmap
    rw [if_neg hmap]
    rfl

/-- Claim C7: header parsing of a successfully constructed image — a
PRG-bank count byte of 2 yields `prg_size = 32768`; a CHR-bank count
byte of 0 yields `chr_size = 0`; with flag bit 3 clear, bit 0 selects
vertical ("V") over horizontal ("H") mirroring; flag bit 3 set yields
four-screen ("4") mirroring regardless of bit 0. -/
theorem C7_header_parse (rom : List Nat) (r : NesRomData)
    (h : NesRom.init rom = .ok r) :
    (rom.get? 4 = some 2 → r.prg_size = 32768)
    ∧ (rom.get? 5 = some 0 → r.chr_size = 0)
    ∧ (∀ b6, rom.get? 6 = some b6 → b6 &&& 8 = 0 →
        r.mirroring = if b6 &&& 1 ≠ 0 then MIR_VER else MIR_HOR)
    ∧ (∀ b6, rom.get? 6 = some b6 → b6 &&& 8 ≠ 0 → r.mirroring = MIR_4SC) := by
  obtain ⟨b4, b5, b6, b7, e4, e5, e6, e7, hprg, hchr, hmapr, hmir, hp, hc⟩ :=
    NesRom.init_ok rom r h
  refine ⟨?_, ?_, ?_, ?_⟩
  · intro hp4
    rw [e4] at hp4
    obtain rfl : b4 = 2 := Option.some.inj hp4
    rw [hprg]
    norm_num
  · intro hp5
    rw [e5] at hp5
    obtain rfl : b5 = 0 := Option.some.inj hp5
    rw [hchr]
  · intro b6' hp6 hbit
    rw [e6] at hp6
    obtain rfl : b6 = b6' := Option.some.inj hp6
    rw [hmir, if_neg (by simp [hbit])]
  · intro b6' hp6 hbit
    rw [e6] at hp6
    obtain rfl : b6 = b6' := Option.some.inj hp6
    rw [hmir, if_pos hbit]

/-- A concrete header used as witness input: magic "NES", PRG count 2,
CHR count 0, flag byte 6 = 9 (bits 0 and 3 set), flag byte 7 = 0. -/
def c7rom : List Nat := [0x4E, 0x45, 0x53, 0x1A, 2, 0, 9, 0]

/-- The image data `NesRom.__init__` produces for `c7rom`. -/
def c7data : NesRomData :=
  { size := 8, ines := c7rom, prg_size := 32768, chr_size := 0, srm_size := 8192,
    mapper := 0, mirroring := MIR_4SC, bat_ram := false, crc := 0,
    prg := [], chr := [] }

/-- Witness for C7: parsing `c7rom` (PRG count 2, flag bits 0 and 3
set) yields `prg_size = 32768` and four-screen mirroring although bit 0
is set. -/
theorem C7_witness : c7data.prg_size = 32768 ∧ c7data.mirroring = MIR_4SC := by
  have h : NesRom.init c7rom = .ok c7data := by decide
  exact ⟨(C7_header_parse c7rom c7data h).1 (by decide),
    (C7_header_parse c7rom c7data h).2.2.2 9 (by decide) (by decide)⟩

/-- Claim C8 as stated is false: the 3-byte input "NES" has exactly the
magic first 3 bytes and no mapper value of 255, yet construction does
not succeed — reading the PRG count byte `rom[4]` raises an IndexError. -/
theorem C8_counterexample :
    pySliceGet [0x4E, 0x45, 0x53] 0 3 = [0x4E, 0x45, 0x53]
      ∧ NesRom.init [0x4E, 0x45, 0x53] = .error .indexError := by
  decide

/-- Claim C8, amended: construction rejects the image as unsupported
whenever the first 3 bytes differ from the magic "NES", and whenever
(the header bytes being present) the mapper id decoded from the two
flag bytes equals 255; for all other inputs of length at least 8 (so
that the four header bytes exist) construction succeeds without
raising; an input passing the magic check but shorter than 8 bytes
raises an IndexError instead. -/
theorem C8_construction (rom : List Nat) :
    (pySliceGet rom 0 3 ≠ [0x4E, 0x45, 0x53] → NesRom.init rom = .error .unsupported)
    ∧ (8 ≤ rom.length → pySliceGet rom 0 3 = [0x4E, 0x45, 0x53] →
        ((rom.getD 6 0 >>> 4) ||| (rom.getD 7 0 &&& 0xF0)) = 255 →
        NesRom.init rom = .error .unsupported)
    ∧ (8 ≤ rom.length → pySliceGet rom 0 3 = [0x4E, 0x45, 0x53] →
        ((rom.getD 6 0 >>> 4) ||| (rom.getD 7 0 &&& 0xF0)) ≠ 255 →
        (NesRom.init rom).isOk = true) := by
  refine ⟨?_, ?_, ?_⟩
  · intro hm
    rw [NesRom.init, if_pos (by rw [pySliceGet_32_3]; exact hm)]
  · intro hlen hm hmap
    exact (NesRom.init_of_bytes rom _ _ _ _
      (get?_eq_getD_of_lt rom 4 (by omega)) (get?_eq_getD_of_lt rom 5 (by omega))
      (get?_eq_getD_of_lt rom 6 (by omega)) (get?_eq_getD_of_lt rom 7 (by omega))
      hm).1 hmap
  · intro hlen hm hmap
    exact (NesRom.init_of_bytes rom _ _ _ _
      (get?_eq_getD_of_lt rom 4 (by omega)) (get?_eq_getD_of_lt rom 5 (by omega))
      (get?_eq_getD_of_lt rom 6 (by omega)) (get?_eq_getD_of_lt rom 7 (by omega))
      hm).2 hmap

/-- Witness for the amended C8: the 8-byte image `c7rom` passes the
magic check, decodes mapper 0 and is constructed successfully. -/
theorem C8_witness : (NesRom.init c7rom).isOk = true :=
  (C8_construction c7rom).2.2 (by decide) (by decide) (by decide)

/-- A concrete header with PRG-bank count 0 (and CHR count 0). -/
def c10rom : List Nat := [0x4E, 0x45, 0x53, 0x1A, 0, 0, 0, 0]

/-- The image data `NesRom.__init__` produces for `c10rom`: note the
4 MiB `prg_size` fallback. -/
def c10data : NesRomData :=
  { size := 8, ines := c10rom, prg_size := 0x400000, chr_size := 0, srm_size := 8192,
    mapper := 0, mirroring := MIR_HOR, bat_ram := false, crc := 0,
    prg := [], chr := [] }

/-- Claim C10: when the PRG-bank count byte is 0, construction silently
overrides `prg_size` to 0x400000 (4 MiB) instead of 0 and slices
`prg = rom[16 : 16 + 0x400000]`; `chr_size` has no such fallback, so a
CHR-bank count byte of 0 leaves the chr slice empty. -/
theorem C10_prg_fallback (rom : List Nat) (r : NesRomData)
    (h : NesRom.init rom = .ok r) (h4 : rom.get? 4 = some 0) :
    r.prg_size = 0x400000
    ∧ r.prg = pySliceGet rom 16 (16 + 0x400000)
    ∧ (rom.get? 5 = some 0 → r.chr_size = 0 ∧ r.chr = []) := by
  obtain ⟨b4, b5, b6, b7, e4, e5, e6, e7, hprg, hchr, hmapr, hmir, hp, hc⟩ :=
    NesRom.init_ok rom r h
  rw [e4] at h4
  obtain rfl : b4 = 0 := Option.some.inj h4
  norm_num at hprg
  refine ⟨hprg, ?_, ?_⟩
  · rw [hp, hprg]
    norm_num
  · intro h5
    rw [e5] at h5
    obtain rfl : b5 = 0 := Option.some.inj h5
    norm_num at hchr
    refine ⟨hchr, ?_⟩
    rw [hc, hchr, hprg]
    push_cast
    exact pySliceGet_self rom _

/-- Witness for C10: parsing `c10rom` (PRG count 0, CHR count 0) yields
the 4 MiB `prg_size` fallback and an empty chr slice. -/
theorem C10_witness :
    c10data.prg_size = 0x400000 ∧ c10data.chr_size = 0 ∧ c10data.chr = [] := by
  have h : NesRom.init c10rom = .ok c10data := by decide
  have H := C10_prg_fallback c10rom c10data h (by decide)
  exact ⟨H.1, (H.2.2 (by decide)).1, (H.2.2 (by decide)).2⟩

/-! ### Claim C9 : the streamed remote file read -/

/-- A Python slice bound given as a natural number. -/
theorem pySliceIdx_natCast (len n : Nat) : pySliceIdx len (n : Nat) = min n len := by
  simp [pySliceIdx, Int.toNat_natCast]

/-- Exact-fit slice assignment `data[offset : offset + block] = chunk`
keeps the prefix and suffix and substitutes the chunk. -/
theorem pySliceSet_exact (data chunk : List Nat) (offset block : Nat)
    (h : offset + block ≤ data.length) :
    pySliceSet data offset (offset + block) chunk
      = data.take offset ++ chunk ++ data.drop (offset + block) := by
  simp only [pySliceSet]
  rw [show ((offset : Int) + (block : Int)) = ((offset + block : Nat) : Int) by push_cast; ring]
  rw [pySliceIdx_natCast, pySliceIdx_natCast]
  have h1 : min offset data.length = offset := by omega
  have h2 : min (offset + block) data.length = offset + block := by omega
  rw [h1, h2, Nat.max_eq_right (by omega)]

/-- The `while length > 0` loop of `Everdrive.read_file`, with the
incoming serial byte stream made explicit: each iteration computes
`block = 4096` capped at the remaining `length`, reads one status byte
(an empty stream makes `receive_8`'s `.pop()` raise, and a non-zero
status raises "File read error" — both modelled `none`), then receives
up to `block` payload bytes and slice-assigns them into the buffer at
`offset`. -/
def read_file_loop (stream data : List Nat) (offset length : Nat) : Option (List Nat) :=
  if length = 0 then some data
  else
    let block := if 4096 > length then length else 4096
    match stream with
    | [] => none
    | r :: stream2 =>
      if r ≠ 0 then none
      else
        read_file_loop (stream2.drop block)
          (pySliceSet data offset (offset + block) (stream2.take block))
          (offset + block) (length - block)
termination_by length
decreasing_by simp_wf; split <;> omega

/-- `Everdrive.read_file` from the source (the transmitted read command
and 32-bit length precede the loop and do not affect the returned
value): allocates `bytearray(length)` and runs the receive loop from
offset 0. -/
def read_file (length : Nat) (stream : List Nat) : Option (List Nat) :=
  read_file_loop stream (List.replicate length 0) 0 length

/-- Unfolding `read_file_loop` at length 0. -/
theorem read_file_loop_zero (stream data : List Nat) (offset : Nat) :
    read_file_loop stream data offset 0 = some data := by
  rw [read_file_loop.eq_def]
  simp

/-- Unfolding `read_file_loop` at a non-empty stream. -/
theorem read_file_loop_cons (r : Nat) (stream2 data : List Nat) (offset length : Nat)
    (h0 : length ≠ 0) :
    read_file_loop (r :: stream2) data offset length
      = if r ≠ 0 then none
        else
          read_file_loop (stream2.drop (if 4096 > length then length else 4096))
            (pySliceSet data offset (offset + (if 4096 > length then length else 4096))
              (stream2.take (if 4096 > length then length else 4096)))
            (offset + (if 4096 > length then length else 4096))
            (length - (if 4096 > length then length else 4096)) := by
  rw [read_file_loop.eq_def, if_neg h0]

/-- A well-formed reply stream for a payload: the payload split into
4096-byte sub-blocks (the last possibly shorter), each sub-block
preceded by a zero (success) status byte. -/
def okStream (payload : List Nat) : List Nat :=
  if payload = [] then []
  else 0 :: (payload.take 4096 ++ okStream (payload.drop 4096))
termination_by payload.length
decreasing_by
  rename_i hne
  have : payload.length ≠ 0 := fun hz => hne (List.length_eq_zero.mp hz)
  simp only [List.length_drop]
  omega

/-- Unfolding `okStream` on the empty payload. -/
theorem okStream_nil : okStream [] = [] := by
  rw [okStream.eq_def]
  rfl

/-- Unfolding `okStream` on a non-empty payload. -/
theorem okStream_cons (payload : List Nat) (h : payload ≠ []) :
    okStream payload = 0 :: (payload.take 4096 ++ okStream (payload.drop 4096)) := by
  rw [okStream.eq_def, if_neg h]

/-- The receive loop on a well-formed reply stream for `payload` writes
exactly `payload` into the buffer at `offset` and succeeds. -/
theorem read_file_loop_ok (payload : List Nat) :
    ∀ (data : List Nat) (offset : Nat) (rest : List Nat),
      offset + payload.length ≤ data.length →
      read_file_loop (okStream payload ++ rest) data offset payload.length
        = some (data.take offset ++ payload ++ data.drop (offset + payload.length)) := by
  intro data offset rest hlen
  by_cases hp : payload = []
  · subst hp
    rw [okStream_nil, List.nil_append, List.length_nil, read_file_loop_zero]
    simp [List.take_append_drop]
  · have hL0 : payload.length ≠ 0 := fun hz => hp (List.length_eq_zero.mp hz)
    have hblock : (if 4096 > payload.length then payload.length else 4096)
        = min 4096 payload.length := by
      split <;> omega
    have hchunklen : (payload.take 4096).length = min 4096 payload.length := by
      simp [List.length_take]
    rw [okStream_cons payload hp, List.cons_append, List.append_assoc,
      read_file_loop_cons 0 _ data offset payload.length hL0,
      if_neg (by simp), hblock,
      List.take_left' hchunklen, List.drop_left' hchunklen,
      pySliceSet_exact data (payload.take 4096) offset (min 4096 payload.length)
        (by omega)]
    have hLd : payload.length - min 4096 payload.length = (payload.drop 4096).length := by
      simp only [List.length_drop]
      omega
    rw [hLd]
    have hlen2 : (offset + min 4096 payload.length) + (payload.drop 4096).length
        ≤ (data.take offset ++ payload.take 4096
            ++ data.drop (offset + min 4096 payload.length)).length := by
      simp only [List.length_append, List.length_take, List.length_drop]
      omega
    rw [read_file_loop_ok (payload.drop 4096)
      (data.take offset ++ payload.take 4096
        ++ data.drop (offset + min 4096 payload.length))
      (offset + min 4096 payload.length) rest hlen2]
    have hA : (data.take offset).length = offset := by
      simp only [List.length_take]
      omega
    have hB : (data.take offset ++ payload.take 4096
        ++ data.drop (offset + min 4096 payload.length)).take
          (offset + min 4096 payload.length)
        = data.take offset ++ payload.take 4096 := by
      rw [List.append_assoc, List.take_append_eq_append_take,
        List.take_of_length_le (by omega : (data.take offset).length
          ≤ offset + min 4096 payload.length)]
      congr 1
      rw [List.take_append_eq_append_take,
        List.take_of_length_le (le_of_eq_of_le hchunklen (by omega))]
      have hz : offset + min 4096 payload.length - (data.take offset).length
          - (payload.take 4096).length = 0 := by
        rw [hA, hchunklen]
        omega
      rw [hz]
      simp
    have hC : (data.take offset ++ payload.take 4096
        ++ data.drop (offset + min 4096 payload.length)).drop
          (offset + min 4096 payload.length + (payload.drop 4096).length)
        = data.drop (offset + payload.length) := by
      rw [List.append_assoc, List.drop_append_eq_append_drop,
        List.drop_eq_nil_of_le (by rw [hA]; omega), List.nil_append,
        List.drop_append_eq_append_drop,
        List.drop_eq_nil_of_le (le_of_eq_of_le hchunklen (by rw [hA]; omega)),
        List.nil_append, List.drop_drop]
      congr 1
      rw [hA, hchunklen]
      simp only [List.length_drop]
      omega
    rw [hB, hC]
    refine congrArg some ?_
    conv_rhs => rw [← List.take_append_drop 4096 payload]
    simp [List.append_assoc]
termination_by payload.length
decreasing_by
  simp only [List.length_drop]
  have : payload.length ≠ 0 := fun hz => hp (List.length_eq_zero.mp hz)
  omega

/-- After any number of complete, zero-status 4096-byte sub-blocks, a
non-zero status byte fails the whole read. -/
theorem read_file_loop_fail (goodpre : List Nat) :
    ∀ (data : List Nat) (offset length : Nat) (s : Nat) (rest : List Nat),
      goodpre.length < length → goodpre.length % 4096 = 0 → s ≠ 0 →
      read_file_loop (okStream goodpre ++ s :: rest) data offset length = none := by
  intro data offset length s rest hlt hmod hs
  by_cases hp : goodpre = []
  · subst hp
    have h0 : length ≠ 0 := by simp at hlt; omega
    rw [okStream_nil, List.nil_append,
      read_file_loop_cons s rest data offset length h0, if_pos hs]
  · have hne : goodpre.length ≠ 0 := fun hz => hp (List.length_eq_zero.mp hz)
    have hge : 4096 ≤ goodpre.length := by omega
    have h0 : length ≠ 0 := by omega
    have hblock : (if 4096 > length then length else 4096) = 4096 := by
      split <;> omega
    have hchunklen : (goodpre.take 4096).length = 4096 := by
      simp only [List.length_take]
      omega
    rw [okStream_cons goodpre hp, List.cons_append, List.append_assoc,
      read_file_loop_cons 0 _ data offset length h0, if_neg (by simp), hblock,
      List.take_left' hchunklen, List.drop_left' hchunklen]
    exact read_file_loop_fail (goodpre.drop 4096) _ _ _ s rest
      (by simp only [List.length_drop]; omega)
      (by simp only [List.length_drop]; omega) hs
termination_by goodpre.length
decreasing_by
  simp only [List.length_drop]
  omega

/-- Claim C9: for every requested length, the remote file read streams
the payload in 4096-byte sub-blocks (the last possibly shorter), with a
one-byte status read before each sub-block (this is the shape of
`okStream`): on a stream carrying the whole payload with zero statuses
the read returns exactly the payload bytes in order (first conjunct),
and the first non-zero status byte — after any number of complete
zero-status sub-blocks with data still owed — fails the whole read
(second conjunct, the spec's FileIOError). -/
theorem C9_read_file (payload goodpre : List Nat) (s : Nat)
    (rest rest2 : List Nat) (N : Nat) :
    (read_file payload.length (okStream payload ++ rest) = some payload)
    ∧ (goodpre.length < N → goodpre.length % 4096 = 0 → s ≠ 0 →
        read_file N (okStream goodpre ++ s :: rest2) = none) := by
  constructor
  · rw [read_file, read_file_loop_ok payload (List.replicate payload.length 0) 0 rest
      (by simp)]
    simp
  · intro h1 h2 h3
    rw [read_file]
    exact read_file_loop_fail goodpre _ _ _ s rest2 h1 h2 h3

/-- Witness for C9: a read of one byte whose first status byte is 7
(non-zero) fails. -/
theorem C9_witness : read_file 1 (okStream [] ++ 7 :: []) = none :=
  (C9_read_file [] [] 7 [] [] 1).2 (by decide) (by decide) (by decide)

end Edlink


